import Mathlib

/-!
Shallow embedding of the transaction query/submission boundary of
`fuel-core` (`crates/fuel-core/src/schema/tx.rs` and
`crates/fuel-core/src/service/query.rs`), together with theorems checking
the specification claims against it.

Conventions: machine integers that matter only as identifiers are `Nat`;
GraphQL `i32` arguments are `Int`; fallible Rust code returns `Except`;
the asynchronous per-id status feed is modelled by an ordered broadcast
log inside a pool state, and a subscription is a registration point into
that log, so that the relative order of subscribing and inserting is
observable.
-/

/-- Iteration direction (`fuel_core_storage::iter::IterDirection`). -/
inductive IterDirection
  | Forward
  | Reverse
deriving DecidableEq, Repr

/-- Transaction lifecycle status
(`fuel_core_types::services::txpool::TransactionStatus`). `Submitted` is
the only non-terminal variant; the payload fields are abstracted to the
data this layer inspects. -/
inductive TransactionStatus
  | Submitted (time : Nat)
  | Success (block : Nat) (time : Nat)
  | SqueezedOut (reason : String)
  | Failed (block : Nat) (time : Nat) (reason : String)
deriving DecidableEq, Repr

/-- A message of the per-id status feed
(`fuel_core_txpool::service::TxStatusMessage`): either a delivered status
or the unrecoverable delivery failure marker. -/
inductive TxStatusMessage
  | Status (s : TransactionStatus)
  | FailedStatus
deriving DecidableEq, Repr

/-- The predicate of the `skip_while` in `submit_and_await`
(`schema/tx.rs`): does the message match
`TxStatusMessage::Status(TransactionStatus::Submitted .. )`? -/
def isSubmittedMessage : TxStatusMessage → Bool
  | .Status (.Submitted _) => true
  | _ => false

/-- The `map` of `submit_and_await` (`schema/tx.rs`): a delivered status is
yielded as a success, `FailedStatus` becomes an explicit error value. -/
def mapStatusMessage : TxStatusMessage → Except String TransactionStatus
  | .Status s => .ok s
  | .FailedStatus => .error "Failed to get transaction status"

/-- The stream pipeline of `submit_and_await` (`schema/tx.rs`):
`skip_while` leading `Submitted` messages, `map` each message, `take(1)`,
applied to the list of messages the subscription delivers. -/
def submitAndAwaitStream (subscription : List TxStatusMessage) :
    List (Except String TransactionStatus) :=
  ((subscription.dropWhile isSubmittedMessage).map mapStatusMessage).take 1

/-- Abstract decoded transaction (`fuel_core_types::fuel_tx::Transaction`);
its content is opaque to this layer. -/
abbrev FuelTx := Nat

/-- A transaction id (`Bytes32`), abstracted. -/
abbrev TxId := Nat

/-- The state of the `TxPool` collaborator that this layer can observe: the
ordered log of status-feed messages it has broadcast so far, each tagged
with the id it concerns, and, per transaction, the outcome of inserting it:
an insertion error, or the list of messages the insertion broadcasts. -/
structure TxPoolState where
  log : List (TxId × TxStatusMessage)
  insertOutcome : FuelTx → Except String (List TxStatusMessage)

/-- A per-id subscription handle: `tx_update_subscribe(id)` registers
interest at the current end of the broadcast log. -/
structure SubscriptionHandle where
  sid : TxId
  mark : Nat
deriving DecidableEq, Repr

/-- `txpool.tx_update_subscribe(id)`: the registration point is the current
length of the broadcast log; messages broadcast from that point on are
delivered to this subscription. -/
def tx_update_subscribe (p : TxPoolState) (id : TxId) : SubscriptionHandle :=
  ⟨id, p.log.length⟩

/-- The messages a subscription has been delivered once the pool has reached
state `p`: every message for its id broadcast at or after its registration
point. -/
def subscriptionEvents (p : TxPoolState) (h : SubscriptionHandle) :
    List TxStatusMessage :=
  ((p.log.drop h.mark).filter (fun e => e.1 == h.sid)).map Prod.snd

/-- `txpool.insert(vec![tx])` for a single transaction, as used by both
`TxMutation::submit` / `submit_and_await` (`schema/tx.rs`) and
`FuelService::submit` (`service/query.rs`): a per-transaction insertion
error is propagated; on success the pool broadcasts the insertion messages
for the transaction id at the end of the log. -/
def txpool_insert (txIdOf : FuelTx → Nat → TxId) (chainId : Nat)
    (p : TxPoolState) (tx : FuelTx) : Except String TxPoolState :=
  match p.insertOutcome tx with
  | .error e => .error e
  | .ok events =>
    .ok { p with log := p.log ++ events.map (fun m => (txIdOf tx chainId, m)) }

/-- `TxStatusSubscription::submit_and_await` (`schema/tx.rs`): decode the
raw bytes, compute the id, subscribe to the per-id status feed, then insert
into the pool, and return the `skip_while` / `map` / `take(1)` stream over
the subscription together with the resulting pool state. -/
def submit_and_await (decode : List Nat → Except String FuelTx)
    (txIdOf : FuelTx → Nat → TxId) (chainId : Nat)
    (p : TxPoolState) (raw : List Nat) :
    Except String (List (Except String TransactionStatus) × TxPoolState) :=
  match decode raw with
  | .error e => .error e
  | .ok tx =>
    let tx_id := txIdOf tx chainId
    let subscription := tx_update_subscribe p tx_id
    match txpool_insert txIdOf chainId p tx with
    | .error e => .error e
    | .ok p2 => .ok (submitAndAwaitStream (subscriptionEvents p2 subscription), p2)

/-- Is a status terminal? Everything except `Submitted` is. -/
def isTerminal : TransactionStatus → Bool
  | .Submitted _ => false
  | _ => true

/-- Modelled from the spec: the status-reconciler combinator
`crate::query::transaction_status_change` is not among the given sources;
per spec section 4.3 and section 7, the live phase forwards each received
feed message as a status item, surfaces the delivery-failure marker as a
distinct terminal error, and stops after the first terminal item. -/
def forwardFeed : List TxStatusMessage → List (Except String TransactionStatus)
  | [] => []
  | .FailedStatus :: _ => [.error "Failed to get transaction status"]
  | .Status s :: rest =>
    if isTerminal s then [.ok s] else .ok s :: forwardFeed rest

/-- Modelled from the spec: the priming phase of the same missing
combinator; per spec section 4.3 the probe result, when present, is always
the first item, a terminal probe result ends the stream without consulting
the feed, a probe error is surfaced, and otherwise the live feed is
forwarded. -/
def reconcilerStream (probeResult : Except String (Option TransactionStatus))
    (feed : List TxStatusMessage) : List (Except String TransactionStatus) :=
  match probeResult with
  | .error e => [.error e]
  | .ok (some s) => if isTerminal s then [.ok s] else .ok s :: forwardFeed feed
  | .ok none => forwardFeed feed

/-- The priming probe of `FuelService::transaction_status_change`
(`service/query.rs`): consult `db.get_tx_status`; when storage has no
status, fall back to the pool record via `txpool.find_one`; storage errors
are propagated by the `?` operator. -/
def serviceProbe (get_tx_status : TxId → Except String (Option TransactionStatus))
    (find_one : TxId → Option TransactionStatus) (id : TxId) :
    Except String (Option TransactionStatus) :=
  match get_tx_status id with
  | .error e => .error e
  | .ok (some status) => .ok (some status)
  | .ok none => .ok (find_one id)

/-- A not-yet-polled status stream: `transaction_status_change` subscribes
at creation time, while the probe runs when the stream is polled. -/
structure StatusStream where
  handle : SubscriptionHandle
  probe : TxId → Except String (Option TransactionStatus)

/-- `FuelService::transaction_status_change` (`service/query.rs`): subscribe
to the per-id feed and pair the subscription with the priming probe. -/
def transaction_status_change
    (probe : TxId → Except String (Option TransactionStatus))
    (p : TxPoolState) (id : TxId) : StatusStream :=
  ⟨tx_update_subscribe p id, probe⟩

/-- The items a status stream yields when polled against pool state `p`. -/
def pollStatusStream (ss : StatusStream) (p : TxPoolState) :
    List (Except String TransactionStatus) :=
  reconcilerStream (ss.probe ss.handle.sid) (subscriptionEvents p ss.handle)

/-- `FuelService::submit_and_status_change` (`service/query.rs`): compute
the id, build the status-change stream (which subscribes), then submit to
the pool, returning the stream and the resulting pool state. -/
def submit_and_status_change
    (get_tx_status : TxId → Except String (Option TransactionStatus))
    (find_one : TxId → Option TransactionStatus)
    (txIdOf : FuelTx → Nat → TxId) (chainId : Nat)
    (p : TxPoolState) (tx : FuelTx) :
    Except String (StatusStream × TxPoolState) :=
  let id := txIdOf tx chainId
  let stream := transaction_status_change (serviceProbe get_tx_status find_one) p id
  match txpool_insert txIdOf chainId p tx with
  | .error e => .error e
  | .ok p2 => .ok (stream, p2)

/-- Is a stream item a successfully delivered `Submitted` status? The
filter in `submit_and_await_commit` keeps every other item, errors
included. -/
def isOkSubmitted : Except String TransactionStatus → Bool
  | .ok (.Submitted _) => true
  | _ => false

/-- `FuelService::submit_and_await_commit` (`service/query.rs`): build the
status-change stream filtered to non-`Submitted` items, submit, then await
the first item of the filtered stream, failing with the explicit
closed-stream error when it yields nothing. -/
def submit_and_await_commit
    (get_tx_status : TxId → Except String (Option TransactionStatus))
    (find_one : TxId → Option TransactionStatus)
    (txIdOf : FuelTx → Nat → TxId) (chainId : Nat)
    (p : TxPoolState) (tx : FuelTx) : Except String TransactionStatus :=
  let id := txIdOf tx chainId
  let stream := transaction_status_change (serviceProbe get_tx_status find_one) p id
  match txpool_insert txIdOf chainId p tx with
  | .error e => .error e
  | .ok p2 =>
    match ((pollStatusStream stream p2).filter (fun r => !(isOkSubmitted r))).head? with
    | none => .error "Stream closed without transaction status"
    | some r => r

/-- Dropping along a satisfying prefix stops exactly at the first failing
element. -/
theorem dropWhile_sat_prefix {α : Type} (p : α → Bool) :
    ∀ (pre : List α), (∀ x ∈ pre, p x = true) → ∀ (m : α) (rest : List α),
      p m = false → (pre ++ m :: rest).dropWhile p = m :: rest := by
  intro pre
  induction pre with
  | nil =>
    intro _ m rest hm
    simp [List.dropWhile, hm]
  | cons a t ih =>
    intro hpre m rest hm
    have ha : p a = true := hpre a (by simp)
    have ht : ∀ x ∈ t, p x = true := fun x hx => hpre x (by simp [hx])
    simp [List.dropWhile, ha, ih ht m rest hm]

/-- Tagging a message list with one id and filtering for that id is the
identity on the payloads. -/
theorem filter_tagged_events (id : TxId) :
    ∀ events : List TxStatusMessage,
      (((events.map (fun m => (id, m))).filter (fun e => e.1 == id)).map Prod.snd)
        = events := by
  intro events
  induction events with
  | nil => rfl
  | cons m t ih => simp [List.filter, ih]

/-- A subscription registered before an insertion is delivered exactly the
messages that the insertion broadcasts for the subscribed id. -/
theorem subscriptionEvents_after_insert (txIdOf : FuelTx → Nat → TxId)
    (chainId : Nat) (p : TxPoolState) (tx : FuelTx)
    (events : List TxStatusMessage) (p2 : TxPoolState)
    (hins : p.insertOutcome tx = .ok events)
    (heq : txpool_insert txIdOf chainId p tx = .ok p2) :
    subscriptionEvents p2 (tx_update_subscribe p (txIdOf tx chainId)) = events := by
  have hp2 : p2 = { p with
      log := p.log ++ events.map (fun m => (txIdOf tx chainId, m)) } := by
    simp [txpool_insert, hins] at heq
    exact heq.symm
  subst hp2
  simp [subscriptionEvents, tx_update_subscribe, List.drop_left,
    filter_tagged_events]

/-- Evaluation of `submit_and_await_commit` over a successful insertion: it
consumes the reconciler stream built from exactly the messages the
insertion broadcast. -/
theorem submit_and_await_commit_eval
    (get_tx_status : TxId → Except String (Option TransactionStatus))
    (find_one : TxId → Option TransactionStatus)
    (txIdOf : FuelTx → Nat → TxId) (chainId : Nat)
    (p : TxPoolState) (tx : FuelTx) (events : List TxStatusMessage)
    (hins : p.insertOutcome tx = .ok events) :
    submit_and_await_commit get_tx_status find_one txIdOf chainId p tx
      = (match ((reconcilerStream
            (serviceProbe get_tx_status find_one (txIdOf tx chainId))
            events).filter (fun r => !(isOkSubmitted r))).head? with
         | none => Except.error "Stream closed without transaction status"
         | some r => r) := by
  have hinsert : txpool_insert txIdOf chainId p tx
      = .ok { p with log := p.log ++ events.map (fun m => (txIdOf tx chainId, m)) } := by
    simp [txpool_insert, hins]
  have hsub := subscriptionEvents_after_insert txIdOf chainId p tx events _ hins hinsert
  have hsub2 : subscriptionEvents
      { p with log := p.log ++ events.map (fun m => (txIdOf tx chainId, m)) }
      ⟨txIdOf tx chainId, p.log.length⟩ = events := by
    simpa [tx_update_subscribe] using hsub
  simp only [submit_and_await_commit, hinsert]
  simp [pollStatusStream, transaction_status_change, tx_update_subscribe, hsub2]

/-- C1: in `submit_and_await`, `submit_and_status_change` and
`submit_and_await_commit` the per-id subscription is registered before the
transaction is inserted into the pool, so the returned stream is computed
from exactly the status messages the insertion broadcasts: none of them can
be missed. -/
theorem subscribe_before_insert_no_missed_events
    (decode : List Nat → Except String FuelTx)
    (txIdOf : FuelTx → Nat → TxId) (chainId : Nat)
    (p : TxPoolState) (raw : List Nat) (tx : FuelTx)
    (events : List TxStatusMessage)
    (get_tx_status : TxId → Except String (Option TransactionStatus))
    (find_one : TxId → Option TransactionStatus)
    (hdec : decode raw = .ok tx)
    (hins : p.insertOutcome tx = .ok events) :
    (∃ p2, submit_and_await decode txIdOf chainId p raw
        = .ok (submitAndAwaitStream events, p2))
    ∧ (∃ ss p2,
        submit_and_status_change get_tx_status find_one txIdOf chainId p tx
          = .ok (ss, p2)
        ∧ pollStatusStream ss p2
            = reconcilerStream
                (serviceProbe get_tx_status find_one (txIdOf tx chainId)) events)
    ∧ submit_and_await_commit get_tx_status find_one txIdOf chainId p tx
        = (match ((reconcilerStream
              (serviceProbe get_tx_status find_one (txIdOf tx chainId))
              events).filter (fun r => !(isOkSubmitted r))).head? with
           | none => Except.error "Stream closed without transaction status"
           | some r => r) := by
  have hinsert : txpool_insert txIdOf chainId p tx
      = .ok { p with log := p.log ++ events.map (fun m => (txIdOf tx chainId, m)) } := by
    simp [txpool_insert, hins]
  have hsub := subscriptionEvents_after_insert txIdOf chainId p tx events _ hins hinsert
  have hsub2 : subscriptionEvents
      { p with log := p.log ++ events.map (fun m => (txIdOf tx chainId, m)) }
      ⟨txIdOf tx chainId, p.log.length⟩ = events := by
    simpa [tx_update_subscribe] using hsub
  refine ⟨⟨{ p with log := p.log ++ events.map (fun m => (txIdOf tx chainId, m)) }, ?_⟩,
    ⟨transaction_status_change (serviceProbe get_tx_status find_one) p (txIdOf tx chainId),
      { p with log := p.log ++ events.map (fun m => (txIdOf tx chainId, m)) }, ?_, ?_⟩, ?_⟩
  · simp only [submit_and_await, hdec, hinsert]
    simp [hsub]
  · simp only [submit_and_status_change, hinsert]
  · simp [pollStatusStream, transaction_status_change, tx_update_subscribe, hsub2]
  · exact submit_and_await_commit_eval get_tx_status find_one txIdOf chainId
      p tx events hins

/-- A concrete decoder for witnesses: the decoded transaction is the byte
count. -/
def decode0 : List Nat → Except String FuelTx := fun raw => .ok raw.length

/-- A concrete id derivation for witnesses. -/
def tif0 : FuelTx → Nat → TxId := fun tx chainId => tx + chainId

/-- A concrete storage status lookup for witnesses: storage knows nothing. -/
def g0 : TxId → Except String (Option TransactionStatus) := fun _ => .ok none

/-- A concrete pool record lookup for witnesses: the pool records nothing. -/
def f0 : TxId → Option TransactionStatus := fun _ => none

/-- The insertion messages broadcast by `pool0` for every transaction. -/
def events0 : List TxStatusMessage :=
  [.Status (.Submitted 2), .Status (.Success 3 4)]

/-- A concrete pool state for witnesses, with one pre-existing log entry for
the same id that the insertion will use. -/
def pool0 : TxPoolState :=
  ⟨[(10, .Status (.Submitted 1))], fun _ => .ok events0⟩

/-- C1 witness: at a concrete pool whose log already holds an older message
for the same id, each of the three pipelines sees exactly the insertion
messages. -/
theorem subscribe_before_insert_no_missed_events_witness :
    (∃ p2, submit_and_await decode0 tif0 7 pool0 [1, 2, 3]
        = .ok (submitAndAwaitStream events0, p2))
    ∧ (∃ ss p2,
        submit_and_status_change g0 f0 tif0 7 pool0 3 = .ok (ss, p2)
        ∧ pollStatusStream ss p2
            = reconcilerStream (serviceProbe g0 f0 (tif0 3 7)) events0)
    ∧ submit_and_await_commit g0 f0 tif0 7 pool0 3
        = (match ((reconcilerStream (serviceProbe g0 f0 (tif0 3 7))
              events0).filter (fun r => !(isOkSubmitted r))).head? with
           | none => Except.error "Stream closed without transaction status"
           | some r => r) :=
  subscribe_before_insert_no_missed_events decode0 tif0 7 pool0 [1, 2, 3] 3
    events0 g0 f0 rfl rfl

/-- C10: when the stream consumed by `submit_and_await_commit` never holds
a non-`Submitted` item, the call returns the explicit closed-stream error
instead of a success. -/
theorem submit_and_await_commit_closed_stream_error
    (get_tx_status : TxId → Except String (Option TransactionStatus))
    (find_one : TxId → Option TransactionStatus)
    (txIdOf : FuelTx → Nat → TxId) (chainId : Nat)
    (p : TxPoolState) (tx : FuelTx) (events : List TxStatusMessage)
    (hins : p.insertOutcome tx = .ok events)
    (hall : ∀ r ∈ reconcilerStream
        (serviceProbe get_tx_status find_one (txIdOf tx chainId)) events,
        isOkSubmitted r = true) :
    submit_and_await_commit get_tx_status find_one txIdOf chainId p tx
      = .error "Stream closed without transaction status" := by
  rw [submit_and_await_commit_eval get_tx_status find_one txIdOf chainId
    p tx events hins]
  have hnil : (reconcilerStream
      (serviceProbe get_tx_status find_one (txIdOf tx chainId))
      events).filter (fun r => !(isOkSubmitted r)) = [] := by
    rw [List.filter_eq_nil_iff]
    intro a ha
    simp [hall a ha]
  rw [hnil]
  rfl

/-- A concrete pool state for the C10 witness: every insertion broadcasts
only a `Submitted` message. -/
def pool1 : TxPoolState :=
  ⟨[], fun _ => .ok [.Status (.Submitted 5)]⟩

/-- C10 witness: with a pool that only ever reports `Submitted`, awaiting a
commit fails with the explicit closed-stream error. -/
theorem submit_and_await_commit_closed_stream_error_witness :
    submit_and_await_commit g0 f0 tif0 7 pool1 2
      = .error "Stream closed without transaction status" :=
  submit_and_await_commit_closed_stream_error g0 f0 tif0 7 pool1 2
    [.Status (.Submitted 5)] rfl (by decide)

/-- C2: the stream returned by `submit_and_await` yields at most one item;
all leading `Submitted` messages are skipped and the first subsequent
message is the single result; `FailedStatus` is surfaced as an explicit
error value, distinct from every delivered status. -/
theorem submit_and_await_single_item :
    (∀ subscription : List TxStatusMessage,
      (submitAndAwaitStream subscription).length ≤ 1)
    ∧ (∀ (pre : List TxStatusMessage) (m : TxStatusMessage)
        (rest : List TxStatusMessage),
        (∀ x ∈ pre, isSubmittedMessage x = true) →
        isSubmittedMessage m = false →
        submitAndAwaitStream (pre ++ m :: rest) = [mapStatusMessage m])
    ∧ (∀ s, mapStatusMessage (.Status s) = .ok s)
    ∧ mapStatusMessage .FailedStatus = .error "Failed to get transaction status"
    ∧ (∀ s, mapStatusMessage .FailedStatus ≠ .ok s) := by
  refine ⟨?_, ?_, ?_, rfl, ?_⟩
  · intro subscription
    simp [submitAndAwaitStream]
  · intro pre m rest hpre hm
    simp [submitAndAwaitStream, dropWhile_sat_prefix isSubmittedMessage pre hpre m rest hm]
  · intro s
    rfl
  · intro s h
    exact Except.noConfusion h

/-- C2 witness: a feed with one leading `Submitted`, then a success, then a
failure marker yields exactly the success. -/
theorem submit_and_await_single_item_witness :
    submitAndAwaitStream
        [TxStatusMessage.Status (.Submitted 0),
         TxStatusMessage.Status (.Success 1 2),
         TxStatusMessage.FailedStatus]
      = [Except.ok (TransactionStatus.Success 1 2)] := by
  have h := submit_and_await_single_item.2.1
    [TxStatusMessage.Status (.Submitted 0)]
    (TxStatusMessage.Status (.Success 1 2))
    [TxStatusMessage.FailedStatus]
    (by decide) (by decide)
  simpa using h

/-- Storage error (`fuel_core_storage::Error`), abstracted to the variants
this boundary distinguishes: a keyed not-found error and everything else. -/
inductive StorageError
  | NotFound (typeName key : String)
  | Other (msg : String)
deriving DecidableEq, Repr

/-- The priming probe of `TxStatusSubscription::status_change`
(`schema/tx.rs`): consult persisted storage via `db.tx_status`; only a
`NotFound` error falls back to the pool submission record, mapped to a
`Submitted` status with the recorded time; any other storage error is
propagated. -/
def status_change_probe
    (tx_status : TxId → Except StorageError TransactionStatus)
    (submission_time : TxId → Option Nat) (id : TxId) :
    Except StorageError (Option TransactionStatus) :=
  match tx_status id with
  | .ok status => .ok (some status)
  | .error (.NotFound _ _) =>
    .ok ((submission_time id).map (fun time => .Submitted time))
  | .error err => .error err

/-- C4: the priming probe first consults persisted storage; only a
`NotFound` storage answer falls back to the pool submission record, mapping
a recorded submission time to a `Submitted` status; any other storage error
is propagated. -/
theorem status_change_probe_storage_first
    (tx_status : TxId → Except StorageError TransactionStatus)
    (submission_time : TxId → Option Nat) (id : TxId) :
    (∀ status, tx_status id = .ok status →
      status_change_probe tx_status submission_time id = .ok (some status))
    ∧ (∀ a b, tx_status id = .error (.NotFound a b) →
      status_change_probe tx_status submission_time id
        = .ok ((submission_time id).map (fun time => .Submitted time)))
    ∧ (∀ msg, tx_status id = .error (.Other msg) →
      status_change_probe tx_status submission_time id
        = .error (.Other msg)) := by
  refine ⟨?_, ?_, ?_⟩
  · intro status h
    simp [status_change_probe, h]
  · intro a b h
    simp [status_change_probe, h]
  · intro msg h
    simp [status_change_probe, h]

/-- C4 witness: at a storage that reports `NotFound` and a pool that
recorded submission time 11, the probe answers `Submitted 11`. -/
theorem status_change_probe_storage_first_witness :
    status_change_probe (fun _ => .error (.NotFound "tx" "k"))
      (fun _ => some 11) 4 = .ok (some (.Submitted 11)) := by
  have h := (status_change_probe_storage_first
    (fun _ => .error (.NotFound "tx" "k")) (fun _ => some 11) 4).2.1
    "tx" "k" rfl
  simpa using h

/-- Modelled from the spec: the `IntoApiResult` adapter is not among the
given sources; per spec section 7 a `NotFound` storage error on a read
query is surfaced as an empty result rather than an error, while other
storage errors propagate. -/
def into_api_result {α : Type} : Except StorageError α → Except StorageError (Option α)
  | .ok v => .ok (some v)
  | .error (.NotFound _ _) => .ok none
  | .error e => .error e

/-- `TxQuery::transaction` (`schema/tx.rs`): answer with the live pool copy
when the id is in the pool, otherwise with the persisted copy adapted
through `into_api_result`. -/
def transaction_query (pool_tx : TxId → Option FuelTx)
    (db_tx : TxId → Except StorageError FuelTx) (id : TxId) :
    Except StorageError (Option FuelTx) :=
  match pool_tx id with
  | some tx => .ok (some tx)
  | none => into_api_result (db_tx id)

/-- C7: `transaction(id)` returns the pool copy when the pool has the id,
otherwise the persisted copy; an id absent from both yields an empty
result, not an error. -/
theorem transaction_pool_first_then_store
    (pool_tx : TxId → Option FuelTx)
    (db_tx : TxId → Except StorageError FuelTx) (id : TxId) :
    (∀ tx, pool_tx id = some tx →
      transaction_query pool_tx db_tx id = .ok (some tx))
    ∧ (∀ tx, pool_tx id = none → db_tx id = .ok tx →
      transaction_query pool_tx db_tx id = .ok (some tx))
    ∧ (∀ a b, pool_tx id = none → db_tx id = .error (.NotFound a b) →
      transaction_query pool_tx db_tx id = .ok none) := by
  refine ⟨?_, ?_, ?_⟩
  · intro tx h
    simp [transaction_query, h]
  · intro tx hp hd
    simp [transaction_query, hp, into_api_result, hd]
  · intro a b hp hd
    simp [transaction_query, hp, into_api_result, hd]

/-- C7 witness: an id absent from the pool and unknown to storage yields an
empty result. -/
theorem transaction_pool_first_then_store_witness :
    transaction_query (fun _ => none)
      (fun _ => .error (.NotFound "tx" "k")) 5 = .ok none :=
  (transaction_pool_first_then_store (fun _ => none)
    (fun _ => .error (.NotFound "tx" "k")) 5).2.2 "tx" "k" rfl rfl

/-- `TxMutation::submit` (`schema/tx.rs`): decode the raw bytes, insert the
transaction into the pool (propagating a per-transaction insertion error),
and return the id computed from the decoded transaction and the configured
chain id. -/
def submit (decode : List Nat → Except String FuelTx)
    (txIdOf : FuelTx → Nat → TxId) (chainId : Nat)
    (p : TxPoolState) (raw : List Nat) : Except String (TxId × TxPoolState) :=
  match decode raw with
  | .error e => .error e
  | .ok tx =>
    match txpool_insert txIdOf chainId p tx with
    | .error e => .error e
    | .ok p2 => .ok (txIdOf tx chainId, p2)

/-- C8: the id returned by `submit` is a pure function of the decoded
transaction and the configured chain id: two successful calls with the same
raw bytes return the same id, whatever pool states they run against. -/
theorem submit_id_pure (decode : List Nat → Except String FuelTx)
    (txIdOf : FuelTx → Nat → TxId) (chainId : Nat)
    (p1 p2 : TxPoolState) (raw : List Nat)
    (id1 id2 : TxId) (s1 s2 : TxPoolState)
    (h1 : submit decode txIdOf chainId p1 raw = .ok (id1, s1))
    (h2 : submit decode txIdOf chainId p2 raw = .ok (id2, s2)) :
    id1 = id2 ∧ ∀ tx, decode raw = .ok tx → id1 = txIdOf tx chainId := by
  cases hdec : decode raw with
  | error e =>
    simp [submit, hdec] at h1
  | ok tx =>
    simp only [submit, hdec] at h1 h2
    cases hi1 : txpool_insert txIdOf chainId p1 tx with
    | error e =>
      simp [hi1] at h1
    | ok q1 =>
      cases hi2 : txpool_insert txIdOf chainId p2 tx with
      | error e =>
        simp [hi2] at h2
      | ok q2 =>
        simp [hi1] at h1
        simp [hi2] at h2
        have ha1 : id1 = txIdOf tx chainId := by
          first
          | exact h1.1
          | exact h1.1.symm
        have ha2 : id2 = txIdOf tx chainId := by
          first
          | exact h2.1
          | exact h2.1.symm
        refine ⟨ha1.trans ha2.symm, ?_⟩
        intro tx2 hdec2
        have htx : tx = tx2 := by injection hdec2
        rw [← htx]
        exact ha1

/-- C8 witness: the same raw bytes submitted against two different pool
states (one log empty, one not) return the same id. -/
theorem submit_id_pure_witness :
    submit decode0 tif0 7 pool1 [1, 2, 3] = .ok (10, ⟨[(10, .Status (.Submitted 5))], pool1.insertOutcome⟩)
    ∧ submit decode0 tif0 7 pool0 [1, 2, 3]
        = .ok (10, ⟨(10, .Status (.Submitted 1))
            :: (10, .Status (.Submitted 2)) :: [(10, .Status (.Success 3 4))],
          pool0.insertOutcome⟩)
    ∧ (10 : TxId) = 10 ∧ (∀ tx, decode0 [1, 2, 3] = .ok tx → (10 : TxId) = tif0 tx 7) := by
  have h := submit_id_pure decode0 tif0 7 pool1 pool0 [1, 2, 3] 10 10
    ⟨[(10, .Status (.Submitted 5))], pool1.insertOutcome⟩
    ⟨(10, .Status (.Submitted 1))
      :: (10, .Status (.Submitted 2)) :: [(10, .Status (.Success 3 4))],
      pool0.insertOutcome⟩
    rfl rfl
  exact ⟨rfl, rfl, h.1, h.2⟩

/-- Owner-index cursor (`TxPointer`): a position in the owner-scoped
transaction index. -/
structure TxPointer where
  block_height : Nat
  tx_index : Nat
deriving DecidableEq, Repr

/-- A page of results: the ordered `(cursor, item)` edges plus the two page
flags (`async_graphql::connection::Connection`). -/
structure Page (C T : Type) where
  edges : List (C × T)
  has_previous_page : Bool
  has_next_page : Bool
deriving DecidableEq, Repr

/-- Collect a pulled prefix of walker results, propagating the first
storage error. -/
def collectResults {α : Type} : List (Except String α) → Except String (List α)
  | [] => .ok []
  | .error e :: _ => .error e
  | .ok a :: rest => (collectResults rest).map (fun l => a :: l)

/-- Decode an optional opaque cursor; a malformed cursor is a client
error. -/
def decodeCursorOpt {C : Type} (dec : String → Option C) :
    Option String → Except String (Option C)
  | none => .ok none
  | some s =>
    match dec s with
    | some c => .ok (some c)
    | none => .error "invalid cursor"

/-- The fixed page size used when neither `first` nor `last` is given. -/
def defaultPageSize : Nat := 25

/-- Modelled from the spec: the generic `crate::schema::query_pagination`
is not among the given sources; per spec section 4.2 it decodes `after` and
`before`, chooses the direction (`last` or `before` imply `Reverse`), runs
the walker from the decoded start cursor, pulls `count + 1` items, trims to
`count`, restores forward order after a reverse walk, and sets the page
flags from the extra probe item and the presence of a start cursor. -/
def query_pagination {C T : Type} (dec : String → Option C)
    (after before : Option String) (first last : Option Int)
    (walker : Option C → IterDirection →
      Except String (List (Except String (C × T)))) :
    Except String (Page C T) :=
  match decodeCursorOpt dec after, decodeCursorOpt dec before with
  | .error e, _ => .error e
  | .ok _, .error e => .error e
  | .ok afterC, .ok beforeC =>
    let direction := if last.isSome || before.isSome then IterDirection.Reverse
      else IterDirection.Forward
    let start := match direction with
      | .Reverse => beforeC
      | .Forward => afterC
    let count := match first, last with
      | some f, _ => f.toNat
      | none, some l => l.toNat
      | none, none => defaultPageSize
    match walker start direction with
    | .error e => .error e
    | .ok seq =>
      match collectResults (seq.take (count + 1)) with
      | .error e => .error e
      | .ok items =>
        let page_items := items.take count
        let edges := match direction with
          | .Reverse => page_items.reverse
          | .Forward => page_items
        .ok ⟨edges, start.isSome, decide (count < items.length)⟩

/-- The reverse-support guard of `transactions_by_owner` (`schema/tx.rs`):
`matches!(last, Some(last) if last > 0)`. -/
def reverseUnsupportedGuard (last : Option Int) : Bool :=
  match last with
  | some l => decide (0 < l)
  | none => false

/-- The owner-scoped walker of `transactions_by_owner` (`schema/tx.rs`):
scan `owned_transactions` from the start cursor and pair every transaction
with its id computed from the chain id. -/
def ownerWalker
    (owned : Option TxPointer → IterDirection →
      List (Except String (TxPointer × FuelTx)))
    (txIdOf : FuelTx → Nat → TxId) (chainId : Nat) :
    Option TxPointer → IterDirection →
      Except String (List (Except String (TxPointer × (TxId × FuelTx)))) :=
  fun start direction =>
    .ok ((owned start direction).map
      (fun r => r.map (fun ct => (ct.1, (txIdOf ct.2 chainId, ct.2)))))

/-- `TxQuery::transactions_by_owner` (`schema/tx.rs`): reject a positive
`last` before touching storage (the owner index has no reverse scan), and
otherwise run the generic pagination over the owner-scoped walker. -/
def transactions_by_owner (dec : String → Option TxPointer)
    (owned : Option TxPointer → IterDirection →
      List (Except String (TxPointer × FuelTx)))
    (txIdOf : FuelTx → Nat → TxId) (chainId : Nat)
    (first : Option Int) (after : Option String) (last : Option Int)
    (before : Option String) :
    Except String (Page TxPointer (TxId × FuelTx)) :=
  if reverseUnsupportedGuard last then
    .error "reverse pagination isn't supported for this resource"
  else
    query_pagination dec after before first last
      (ownerWalker owned txIdOf chainId)

/-- C3: a `transactionsByOwner` request with a positive `last` fails with
the unsupported-reverse-pagination error, whatever `first`, `after` and
`before` are, and without consulting storage: the result is the same
constant error for every owner index. -/
theorem transactions_by_owner_positive_last_unsupported
    (dec : String → Option TxPointer)
    (owned owned2 : Option TxPointer → IterDirection →
      List (Except String (TxPointer × FuelTx)))
    (txIdOf : FuelTx → Nat → TxId) (chainId : Nat)
    (first : Option Int) (after before : Option String) (l : Int)
    (hl : 0 < l) :
    transactions_by_owner dec owned txIdOf chainId first after (some l) before
      = .error "reverse pagination isn't supported for this resource"
    ∧ transactions_by_owner dec owned txIdOf chainId first after (some l) before
      = transactions_by_owner dec owned2 txIdOf chainId first after (some l)
          before := by
  have hguard : reverseUnsupportedGuard (some l) = true := by
    simp [reverseUnsupportedGuard, hl]
  constructor
  · simp [transactions_by_owner, hguard]
  · simp [transactions_by_owner, hguard]

/-- C3 witness: `last = 1` is rejected with the unsupported error even with
`first` and `before` set, and the answer ignores the storage collaborator. -/
theorem transactions_by_owner_positive_last_unsupported_witness :
    transactions_by_owner (fun _ => none) (fun _ _ => [])
        (fun tx c => tx + c) 7 (some 2) (some "a") (some 1) (some "b")
      = .error "reverse pagination isn't supported for this resource"
    ∧ transactions_by_owner (fun _ => none) (fun _ _ => [])
        (fun tx c => tx + c) 7 (some 2) (some "a") (some 1) (some "b")
      = transactions_by_owner (fun _ => none)
          (fun _ _ => [.ok (⟨1, 0⟩, 3)]) (fun tx c => tx + c) 7 (some 2)
          (some "a") (some 1) (some "b") :=
  transactions_by_owner_positive_last_unsupported (fun _ => none)
    (fun _ _ => []) (fun _ _ => [.ok (⟨1, 0⟩, 3)]) (fun tx c => tx + c) 7
    (some 2) (some "a") (some "b") 1 (by decide)

/-- C9: the guard triggers only for `last = Some(n)` with `n > 0`:
`last = Some(0)`, a negative `last`, and `before` with `last` unset all
pass the guard, and the request proceeds to pagination instead of being
rejected. -/
theorem reverse_guard_only_positive_last (dec : String → Option TxPointer)
    (owned : Option TxPointer → IterDirection →
      List (Except String (TxPointer × FuelTx)))
    (txIdOf : FuelTx → Nat → TxId) (chainId : Nat)
    (first : Option Int) (after : Option String) (b : String) :
    reverseUnsupportedGuard (some 0) = false
    ∧ reverseUnsupportedGuard (some (-1)) = false
    ∧ reverseUnsupportedGuard none = false
    ∧ transactions_by_owner dec owned txIdOf chainId first after (some 0)
        (some b)
      = query_pagination dec after (some b) first (some 0)
          (ownerWalker owned txIdOf chainId)
    ∧ transactions_by_owner dec owned txIdOf chainId first after (some (-1))
        (some b)
      = query_pagination dec after (some b) first (some (-1))
          (ownerWalker owned txIdOf chainId)
    ∧ transactions_by_owner dec owned txIdOf chainId first after none (some b)
      = query_pagination dec after (some b) first none
          (ownerWalker owned txIdOf chainId) := by
  refine ⟨rfl, rfl, rfl, ?_, ?_, ?_⟩
  · simp [transactions_by_owner, reverseUnsupportedGuard]
  · simp [transactions_by_owner, reverseUnsupportedGuard]
  · simp [transactions_by_owner, reverseUnsupportedGuard]

/-- Global-list cursor (`SortedTxCursor`): block height, then the
transaction id at its intra-block position. -/
structure SortedTxCursor where
  block_height : Nat
  tx_id : TxId
deriving DecidableEq, Repr

/-- A compressed block as this layer consumes it: its height and the ids of
its transactions in block order. -/
structure CompressedBlock where
  height : Nat
  txs : List TxId
deriving DecidableEq, Repr

/-- The per-block step of the `transactions` walker (`schema/tx.rs`):
reverse the in-block transaction list when iterating in reverse, keep it
unchanged for forward, and pair every transaction with the block height as
a cursor. -/
def blockCursors (direction : IterDirection) (b : CompressedBlock) :
    List SortedTxCursor :=
  let txs := if direction = IterDirection.Reverse then b.txs.reverse else b.txs
  txs.map (fun t => ⟨b.height, t⟩)

/-- The `skip_while` predicate of the `transactions` walker: with a start
cursor, skip successful cursors different from it; errors and, with no
start cursor, everything pass through. -/
def skipUntilStart (start : Option SortedTxCursor) :
    Except String SortedTxCursor → Bool
  | .ok sorted =>
    match start with
    | some s => decide (sorted ≠ s)
    | none => false
  | .error _ => false

/-- The expansion stage of the `transactions` walker (`schema/tx.rs`):
fetch the compressed blocks from the start height and expand each into its
per-transaction cursors (`flatten_ok`: an errored block stays one error
item). -/
def expandedCursors
    (blocks : Option Nat → IterDirection → List (Except String CompressedBlock))
    (start : Option SortedTxCursor) (direction : IterDirection) :
    List (Except String SortedTxCursor) :=
  ((blocks (start.map (fun s => s.block_height)) direction).map
    (fun r =>
      match r with
      | .error e => [Except.error e]
      | .ok b => (blockCursors direction b).map Except.ok)).flatten

/-- The cursor stage of the `transactions` walker: the expansion followed
by the skip-until-start correction. -/
def walkerCursors
    (blocks : Option Nat → IterDirection → List (Except String CompressedBlock))
    (start : Option SortedTxCursor) (direction : IterDirection) :
    List (Except String SortedTxCursor) :=
  (expandedCursors blocks start direction).dropWhile (skipUntilStart start)

/-- The fetch stage of the `transactions` walker: look up each surviving
cursor, folding storage failures into the item. -/
def transactionsWalker
    (blocks : Option Nat → IterDirection → List (Except String CompressedBlock))
    (fetch : TxId → Except String FuelTx)
    (start : Option SortedTxCursor) (direction : IterDirection) :
    List (Except String (SortedTxCursor × FuelTx)) :=
  (walkerCursors blocks start direction).map
    (fun r => r.bind (fun sorted => (fetch sorted.tx_id).map (fun tx => (sorted, tx))))

/-- Decidable equality on `Except`, for evaluating witnesses. -/
instance {ε α : Type} [DecidableEq ε] [DecidableEq α] : DecidableEq (Except ε α) :=
  fun a b =>
    match a, b with
    | .ok x, .ok y =>
      if h : x = y then .isTrue (by rw [h]) else .isFalse (by intro hc; cases hc; exact h rfl)
    | .error x, .error y =>
      if h : x = y then .isTrue (by rw [h]) else .isFalse (by intro hc; cases hc; exact h rfl)
    | .ok _, .error _ => .isFalse (by intro hc; cases hc)
    | .error _, .ok _ => .isFalse (by intro hc; cases hc)

/-- The head surviving `dropWhile` fails the predicate. -/
theorem dropWhile_head_false {α : Type} (p : α → Bool) :
    ∀ (l : List α) (x : α) (rest : List α),
      l.dropWhile p = x :: rest → p x = false := by
  intro l
  induction l with
  | nil =>
    intro x rest h
    simp [List.dropWhile] at h
  | cons a t ih =>
    intro x rest h
    cases ha : p a with
    | true =>
      rw [List.dropWhile_cons_of_pos ha] at h
      exact ih x rest h
    | false =>
      rw [List.dropWhile_cons_of_neg (by simp [ha])] at h
      obtain ⟨h1, -⟩ := List.cons.injEq .. ▸ h
      rw [← h1]
      exact ha

/-- C5: with a start cursor, the `transactions` walker skips exactly the
produced cursors different from it, so when the first yielded item is a
successful `(cursor, item)` pair its cursor equals the start cursor. -/
theorem transactions_start_cursor_inclusive
    (blocks : Option Nat → IterDirection → List (Except String CompressedBlock))
    (fetch : TxId → Except String FuelTx)
    (s : SortedTxCursor) (direction : IterDirection) :
    (∀ r ∈ (expandedCursors blocks (some s) direction).takeWhile
        (skipUntilStart (some s)), ∀ c, r = .ok c → c ≠ s)
    ∧ (∀ (x : Except String (SortedTxCursor × FuelTx)) rest,
        transactionsWalker blocks fetch (some s) direction = x :: rest →
        ∀ c tx, x = .ok (c, tx) → c = s) := by
  constructor
  · intro r hr c hrc
    have hp := List.mem_takeWhile_imp hr
    rw [hrc] at hp
    simpa [skipUntilStart] using hp
  · intro x rest h c tx hx
    subst hx
    cases hw : walkerCursors blocks (some s) direction with
    | nil =>
      rw [transactionsWalker, hw] at h
      simp at h
    | cons y ys =>
      rw [transactionsWalker, hw] at h
      simp only [List.map_cons] at h
      have h1 : (y.bind fun sorted =>
          (fetch sorted.tx_id).map (fun tx => (sorted, tx))) = .ok (c, tx) :=
        (List.cons.injEq .. ▸ h).1
      cases y with
      | error e => simp [Except.bind] at h1
      | ok d =>
        have hds : d = c := by
          cases hf : fetch d.tx_id with
          | error e => simp [Except.bind, hf, Except.map] at h1
          | ok v =>
            simp [Except.bind, hf, Except.map] at h1
            exact h1.1
        have hhead : skipUntilStart (some s) (.ok d) = false := by
          rw [walkerCursors] at hw
          exact dropWhile_head_false (skipUntilStart (some s)) _ _ _ hw
        have : d = s := by simpa [skipUntilStart] using hhead
        rw [← hds]
        exact this

/-- A concrete block source for witnesses: one block at height 10 holding
transactions 1, 2 and 3. -/
def blocks0 : Option Nat → IterDirection → List (Except String CompressedBlock) :=
  fun _ _ => [Except.ok ⟨10, [1, 2, 3]⟩]

/-- A concrete transaction fetch for witnesses. -/
def fetch0 : TxId → Except String FuelTx := fun t => Except.ok t

/-- C5 witness: starting at the cursor of transaction 2 in block 10, the
skipped cursor (transaction 1) differs from the start, and the first item
yielded by the walker carries exactly the start cursor. -/
theorem transactions_start_cursor_inclusive_witness :
    (⟨10, 1⟩ : SortedTxCursor) ≠ ⟨10, 2⟩
    ∧ (⟨10, 2⟩ : SortedTxCursor) = ⟨10, 2⟩ :=
  ⟨(transactions_start_cursor_inclusive blocks0 fetch0 ⟨10, 2⟩
      IterDirection.Forward).1 (.ok ⟨10, 1⟩) (by decide) ⟨10, 1⟩ rfl,
   (transactions_start_cursor_inclusive blocks0 fetch0 ⟨10, 2⟩
      IterDirection.Forward).2 (.ok (⟨10, 2⟩, 2)) [.ok (⟨10, 3⟩, 3)]
      (by decide) ⟨10, 2⟩ 2 rfl⟩

/-- With no start cursor the skip-until-start correction passes everything
through. -/
theorem dropWhile_none_start (l : List (Except String SortedTxCursor)) :
    l.dropWhile (skipUntilStart none) = l := by
  cases l with
  | nil => rfl
  | cons a t =>
    have ha : skipUntilStart none a = false := by cases a <;> rfl
    simp [List.dropWhile, ha]

/-- C6: scanning one block in `Reverse` reverses the in-block transaction
order before it is yielded, while `Forward` preserves it unchanged. -/
theorem transactions_block_order_direction (b : CompressedBlock) :
    walkerCursors (fun _ _ => [Except.ok b]) none IterDirection.Reverse
        = b.txs.reverse.map (fun t => Except.ok ⟨b.height, t⟩)
    ∧ walkerCursors (fun _ _ => [Except.ok b]) none IterDirection.Forward
        = b.txs.map (fun t => Except.ok ⟨b.height, t⟩)
    ∧ (blockCursors IterDirection.Forward b).map (fun c => c.tx_id) = b.txs
    ∧ (blockCursors IterDirection.Reverse b).map (fun c => c.tx_id)
        = b.txs.reverse := by
  refine ⟨?_, ?_, ?_, ?_⟩
  · simp [walkerCursors, expandedCursors, dropWhile_none_start, blockCursors,
      List.map_map, Function.comp]
  · simp [walkerCursors, expandedCursors, dropWhile_none_start, blockCursors,
      List.map_map, Function.comp]
  · simp [blockCursors, List.map_map, Function.comp_def]
  · simp [blockCursors, List.map_map, Function.comp_def]
